import Mathlib

/-!
Verification development for the cc-backend prediction-aggregation engine.

The embedding mirrors the Python sources:
- `app/models/prediction.py` (data model and request validation),
- `app/services/prediction_processor.py` (interpolation and smoothing),
- `app/services/prediction_service.py` (the aggregation orchestrator).

Timestamps are modelled as rational numbers of seconds (UTC); counts are
integers; all intermediate numerics (numpy arrays, scipy interpolators)
are modelled over `ℚ`.
-/

namespace CCBackend

/-- One camera/position feed, from `app/models/prediction.py` (`CameraPosition`). -/
structure CameraPosition where
  camera_id : String
  position : String
deriving DecidableEq

/-- Raw prediction data for a camera position, from `app/models/prediction.py`
(`PredictionData`): parallel lists of timestamps and counts plus identity. -/
structure PredictionData where
  dates : List ℚ
  counts : List ℤ
  camera_id : String
  position : String
deriving DecidableEq

/-- `PredictionData.has_data`: whether the camera reported any sample. -/
def PredictionData.has_data (p : PredictionData) : Bool :=
  decide (0 < p.dates.length)

/-- Diagnostic record from `app/models/prediction.py` (`CameraTimestamp`). -/
structure CameraTimestamp where
  camera_id : String
  position : String
  timestamp : ℚ
deriving DecidableEq

/-- One output sample, from `app/models/prediction.py` (`TimeSeriesPoint`). -/
structure TimeSeriesPoint where
  timestamp : ℚ
  value : ℤ
deriving DecidableEq

/-- Response shape, from `app/models/prediction.py` (`AggregateTimeSeriesResponse`). -/
structure AggregateTimeSeriesResponse where
  time_series : List TimeSeriesPoint
  camera_timestamps : List CameraTimestamp
deriving DecidableEq

/-- Request body, from `app/models/prediction.py` (`AggregateTimeSeriesRequest`).
`end_date` is absolute seconds, `lookback_hours` a float (here `ℚ`),
`half_moving_avg_size` an int. -/
structure AggregateTimeSeriesRequest where
  end_date : ℚ
  lookback_hours : ℚ
  half_moving_avg_size : ℤ
deriving DecidableEq

/-- The request validation that the deployed Pydantic model actually performs.
In `app/models/prediction.py` the `half_moving_avg_size` field carries `ge=0`,
which is enforced.  The `lookback_hours` annotation, however, assigns the field
a one-element tuple — `lookback_hours: float = (Field(3.0, ..., gt=0),)` (note
the trailing comma) — so Pydantic treats the tuple as a plain default and the
`gt=0` constraint is never registered: a negative `lookback_hours` in the
request body passes validation. -/
def requestAccepted (r : AggregateTimeSeriesRequest) : Bool :=
  decide (0 ≤ r.half_moving_avg_size)

/-- Modelled from the spec: the intended request validation (`ValidationError`
when `lookback_hours <= 0` or `half_moving_avg_size < 0`, rejected before any
store access), which the source's inline comments also state. -/
def requestAcceptedSpec (r : AggregateTimeSeriesRequest) : Bool :=
  decide (0 < r.lookback_hours) && decide (0 ≤ r.half_moving_avg_size)

/-- Python's `int(x)` applied to a real value: truncation toward zero.
(`Rat.floor` is the executable floor on `ℚ`.) -/
def ratTrunc (q : ℚ) : ℤ :=
  if q < 0 then -(Rat.floor (-q)) else Rat.floor q

/-- Modelled from the spec: `app/utils/time_utils.to_utc` (imported by
`prediction_processor.py` but absent from the sources) normalizes a datetime
to UTC.  With timestamps embedded as absolute rational seconds this is the
identity. -/
def to_utc (d : ℚ) : ℚ := d

/-- Python's `min(list)` on a nonempty list (default 0 on `[]`, where the
source would raise). -/
def listMin : List ℚ → ℚ
  | [] => 0
  | x :: xs => xs.foldl min x

/-- Python's `max(list)` on a nonempty list (default 0 on `[]`, where the
source would raise). -/
def listMax : List ℚ → ℚ
  | [] => 0
  | x :: xs => xs.foldl max x

/-- The value of the linear segment through `(x0, y0)` and `(x1, y1)` at `t`. -/
def interpSeg (x0 y0 x1 y1 t : ℚ) : ℚ :=
  y0 + (t - x0) * ((y1 - y0) / (x1 - x0))

/-- `scipy.interpolate.interp1d(xs, ys, kind="linear", fill_value="extrapolate")`
evaluated at `t`, for knots sorted by `x`: piecewise-linear between consecutive
knots; below the first knot the first segment is extended, above the last knot
the last segment is extended. -/
def interp1d : List (ℚ × ℚ) → ℚ → ℚ
  | [], _ => 0
  | [(_, y0)], _ => y0
  | [(x0, y0), (x1, y1)], t => interpSeg x0 y0 x1 y1 t
  | (x0, y0) :: (x1, y1) :: p :: rest, t =>
    if t ≤ x1 then interpSeg x0 y0 x1 y1 t
    else interp1d ((x1, y1) :: p :: rest) t

/-- The per-camera interpolation function built in
`PredictionProcessor.create_interpolation_functions`
(`app/services/prediction_processor.py`, lines 41–66): a single sample yields
the constant function `np.full(len(d), count)`; otherwise `interp1d` over the
(elapsed-seconds-since-`start_dt`, count) pairs. -/
def cameraInterpolator (start_dt : ℚ) (pred : PredictionData) : ℚ → ℚ :=
  if pred.dates.length = 1 then
    fun _ => ((pred.counts.headI : ℤ) : ℚ)
  else
    interp1d
      ((pred.dates.map (fun d => to_utc d - to_utc start_dt)).zip
        (pred.counts.map (fun c => (c : ℚ))))

/-- Result record of `create_interpolation_functions`
(`InterpolationResult` in `app/models/prediction.py`). -/
structure InterpolationResult where
  interpolation_funcs : List (ℚ → ℚ)
  min_date : ℚ
  max_date : ℚ

/-- `PredictionProcessor.create_interpolation_functions`: one interpolation
function per camera, plus the min and max timestamp over all samples of all
cameras. -/
def create_interpolation_functions (predictions : List PredictionData)
    (start_dt : ℚ) : InterpolationResult :=
  { interpolation_funcs := predictions.map (cameraInterpolator start_dt)
  , min_date := listMin (predictions.flatMap (fun p => p.dates))
  , max_date := listMax (predictions.flatMap (fun p => p.dates)) }

/-- `numpy.linspace(lo, hi, num)`: `num` evenly spaced points from `lo` to
`hi` inclusive (`[lo]` when `num = 1`, `[]` when `num = 0`). -/
def linspace (lo hi : ℚ) (num : ℕ) : List ℚ :=
  if num = 0 then []
  else if num = 1 then [lo]
  else (List.range num).map (fun i : ℕ => lo + (i : ℚ) * (hi - lo) / ((num : ℚ) - 1))

/-- `PredictionProcessor.apply_moving_average`
(`app/services/prediction_processor.py`, lines 78–116): identity when
`half_window_size = 0`; otherwise pad with `half_window_size` copies of the
first and last values and convolve with a uniform window of size
`2 * half_window_size + 1` in `"valid"` mode. -/
def apply_moving_average (values : List ℚ) (half_window_size : ℕ) : List ℚ :=
  if half_window_size = 0 then values
  else
    let window_size := 2 * half_window_size + 1
    let padded_values :=
      List.replicate half_window_size values.headI ++ values ++
        List.replicate half_window_size (values.getLastD 0)
    (List.range (padded_values.length + 1 - window_size)).map
      (fun j => ((padded_values.drop j).take window_size).sum / (window_size : ℚ))

/-- `numpy.sum(arrays, axis=0)`: elementwise sum of a list of equal-length
value lists. -/
def np_sum_axis0 : List (List ℚ) → List ℚ
  | [] => []
  | [v] => v
  | v :: rest => List.zipWith (fun a b => a + b) v (np_sum_axis0 rest)

/-- Typed rendering of the `HTTPException`s raised by
`PredictionService.aggregate_time_series`: the status code together with the
dynamic content of the detail message. -/
inductive AggError where
  | projectNotFound (project_id : String)
  | areaNotFound (area_id : String) (project_id : String)
  | partialData (missing_cameras : List String)
deriving DecidableEq

deriving instance DecidableEq for Except

/-- The HTTP status code each error is raised with. -/
def AggError.statusCode : AggError → ℕ
  | .projectNotFound _ => 404
  | .areaNotFound _ _ => 404
  | .partialData _ => 422

/-- The `f"{pred.camera_id}@{pred.position}"` name used in the partial-data
error message. -/
def cameraName (p : PredictionData) : String :=
  p.camera_id ++ "@" ++ p.position

/-- `start_dt = end_dt - timedelta(hours=request.lookback_hours)`
(`prediction_service.py`, line 117), in seconds. -/
def aggregate_start_dt (request : AggregateTimeSeriesRequest) : ℚ :=
  request.end_date - request.lookback_hours * 3600

/-- `num=int(request.lookback_hours * 120)` (`prediction_service.py`,
line 180): Python `int()` truncation, clamped at 0 as a list length. -/
def grid_point_count (request : AggregateTimeSeriesRequest) : ℕ :=
  (ratTrunc (request.lookback_hours * 120)).toNat

/-- The uniform evaluation grid of `prediction_service.py`, lines 177–181:
`linspace` between the elapsed-seconds offsets of the earliest and latest
observed sample across all cameras. -/
def observed_time_grid (predictions : List PredictionData)
    (request : AggregateTimeSeriesRequest) : List ℚ :=
  let start_dt := aggregate_start_dt request
  let ir := create_interpolation_functions predictions start_dt
  linspace (ir.min_date - start_dt) (ir.max_date - start_dt)
    (grid_point_count request)

/-- Step 8 of `aggregate_time_series`: evaluate every interpolation function
on the grid and sum elementwise. -/
def summed_values (predictions : List PredictionData)
    (request : AggregateTimeSeriesRequest) : List ℚ :=
  let start_dt := aggregate_start_dt request
  let ir := create_interpolation_functions predictions start_dt
  np_sum_axis0
    (ir.interpolation_funcs.map (fun f => (observed_time_grid predictions request).map f))

/-- Step 9 of `aggregate_time_series`: optional moving-average smoothing. -/
def smoothed_values (predictions : List PredictionData)
    (request : AggregateTimeSeriesRequest) : List ℚ :=
  apply_moving_average (summed_values predictions request)
    request.half_moving_avg_size.toNat

/-- Step 10 of `aggregate_time_series` (lines 197–204): zip the grid with the
smoothed values, converting offsets back to absolute timestamps and clamping
each value with `max(0, int(v))`. -/
def assembled_series (predictions : List PredictionData)
    (request : AggregateTimeSeriesRequest) : List TimeSeriesPoint :=
  ((observed_time_grid predictions request).zip (smoothed_values predictions request)).map
    (fun tv => { timestamp := aggregate_start_dt request + tv.1
               , value := max 0 (ratTrunc tv.2) })

/-- Step 5 of `aggregate_time_series`: the diagnostic timestamps of one
camera. -/
def camera_timestamp_entries (p : PredictionData) : List CameraTimestamp :=
  p.dates.map (fun ts => { camera_id := p.camera_id, position := p.position, timestamp := ts })

/-- `PredictionService.aggregate_time_series`
(`app/services/prediction_service.py`, lines 74–209) after the per-camera
fetch: classification of data availability followed by the
interpolate/grid/sum/smooth/assemble pipeline.  `predictions` is the list
returned by `PredictionRepository.get_predictions_for_area`, one entry per
camera of the resolved area. -/
def aggregate_core (predictions : List PredictionData)
    (request : AggregateTimeSeriesRequest) :
    Except AggError AggregateTimeSeriesResponse :=
  let cameras_with_data := predictions.filter (fun p => p.has_data)
  let cameras_without_data := predictions.filter (fun p => !p.has_data)
  if cameras_with_data.length = 0 then
    .ok { time_series := [], camera_timestamps := [] }
  else if 0 < cameras_without_data.length then
    .error (.partialData (cameras_without_data.map cameraName))
  else
    .ok { time_series := assembled_series predictions request
        , camera_timestamps := cameras_with_data.flatMap camera_timestamp_entries }

/-- Camera A of the spec's worked scenario: samples (0 s, 10) and
(1800 s, 20) on absolute timestamps with the window start at 0. -/
def predA : PredictionData :=
  { dates := [0, 1800], counts := [10, 20], camera_id := "A", position := "p" }

/-- Camera B of the worked scenario: a single sample of count 5 at time
`tB` inside the window. -/
def predB (tB : ℚ) : PredictionData :=
  { dates := [tB], counts := [5], camera_id := "B", position := "p" }

/-- The worked scenario request: `end_date` 1800 s, `lookback_hours = 0.5`
(window `[0, 1800]`), no smoothing. -/
def reqWorked : AggregateTimeSeriesRequest :=
  { end_date := 1800, lookback_hours := 1/2, half_moving_avg_size := 0 }

/-! ### Helper lemmas -/

section

attribute [local semireducible] Rat.add Rat.sub Rat.mul Rat.inv Rat.ofScientific

/-- Smoothing never changes the length of the series. -/
theorem apply_moving_average_length (values : List ℚ) (h : ℕ) :
    (apply_moving_average values h).length = values.length := by
  unfold apply_moving_average
  by_cases h0 : h = 0
  · simp [h0]
  · simp only [h0, if_neg, List.length_map, List.length_range, List.length_append,
      List.length_replicate, ite_false]
    omega

/-- `linspace` returns exactly `num` points. -/
theorem linspace_length (lo hi : ℚ) (num : ℕ) :
    (linspace lo hi num).length = num := by
  unfold linspace
  split_ifs with h0 h1
  · simp [h0]
  · simp [h1]
  · rw [List.length_map, List.length_range]

/-- Elementwise summation of a nonempty family of equal-length lists keeps
the common length. -/
theorem np_sum_axis0_length (n : ℕ) :
    ∀ ls : List (List ℚ), ls ≠ [] → (∀ l ∈ ls, l.length = n) →
      (np_sum_axis0 ls).length = n := by
  intro ls
  induction ls with
  | nil => intro hne _; exact absurd rfl hne
  | cons v rest ih =>
    intro _ hlen
    cases rest with
    | nil => simpa [np_sum_axis0] using hlen v (by simp)
    | cons w rest2 =>
      have hv : v.length = n := hlen v (by simp)
      have hrest : (np_sum_axis0 (w :: rest2)).length = n :=
        ih (by simp) (fun l hl => hlen l (by simp [hl]))
      simp [np_sum_axis0, List.length_zipWith, hv, hrest]

/-- The executable floor on `ℚ` agrees with the order-theoretic floor. -/
theorem rat_floor_eq_floor (q : ℚ) : Rat.floor q = Int.floor q := by
  rw [Rat.floor_def', ← Rat.floor_def]

/-- On nonnegative arguments, Python truncation agrees with the floor. -/
theorem ratTrunc_eq_floor (q : ℚ) (h : 0 ≤ q) : ratTrunc q = Int.floor q := by
  unfold ratTrunc
  rw [if_neg (not_lt.mpr h)]
  exact rat_floor_eq_floor q

/-- The success path of the orchestrator: when every fetched camera has data
(and there is at least one), `aggregate_core` returns the assembled series
together with the flattened per-camera timestamps. -/
theorem aggregate_ok_of_all_data (predictions : List PredictionData)
    (request : AggregateTimeSeriesRequest) (hne : predictions ≠ [])
    (hall : ∀ p ∈ predictions, p.has_data = true) :
    aggregate_core predictions request =
      .ok { time_series := assembled_series predictions request
          , camera_timestamps := predictions.flatMap camera_timestamp_entries } := by
  have hf : predictions.filter (fun p => p.has_data) = predictions :=
    List.filter_eq_self.mpr (fun a ha => by simp [hall a ha])
  have hf2 : predictions.filter (fun p => !p.has_data) = [] :=
    List.filter_eq_nil_iff.mpr (fun a ha => by simp [hall a ha])
  unfold aggregate_core
  rw [hf, hf2]
  rw [if_neg (by simpa [List.length_eq_zero] using hne), if_neg (by simp)]

/-- The length of the assembled time series equals the grid point count
whenever at least one camera contributes. -/
theorem assembled_series_length (predictions : List PredictionData)
    (request : AggregateTimeSeriesRequest) (hne : predictions ≠ []) :
    (assembled_series predictions request).length = grid_point_count request := by
  have hgrid : (observed_time_grid predictions request).length =
      grid_point_count request := by
    unfold observed_time_grid
    exact linspace_length _ _ _
  have hsum : (summed_values predictions request).length =
      grid_point_count request := by
    unfold summed_values
    refine np_sum_axis0_length _ _ ?_ ?_
    · simp only [create_interpolation_functions, ne_eq, List.map_eq_nil_iff]
      exact hne
    intro l hl
    simp only [List.mem_map] at hl
    obtain ⟨f, -, rfl⟩ := hl
    simp [hgrid]
  have hsm : (smoothed_values predictions request).length =
      grid_point_count request := by
    unfold smoothed_values
    rw [apply_moving_average_length]
    exact hsum
  unfold assembled_series
  rw [List.length_map, List.length_zip, hgrid, hsm, min_self]

/-! ### Claim theorems -/

/-- C7: applying the smoother with `half_window = 0` returns the series
unchanged. -/
theorem smooth_zero_identity (values : List ℚ) :
    apply_moving_average values 0 = values := rfl

/-- C8: for a nonempty series and any half-window `h`, the smoothed series
has the same length as the input, and for `h > 0` it is exactly the centered
moving average of window `2*h + 1` over the series padded with `h` copies of
its first value on the left and `h` copies of its last value on the right. -/
theorem smooth_edge_padding_invariant (values : List ℚ) (h : ℕ)
    (hne : values ≠ []) :
    (apply_moving_average values h).length = values.length ∧
    (0 < h → apply_moving_average values h =
      (List.range values.length).map (fun j =>
        (((List.replicate h values.headI ++ values ++
            List.replicate h (values.getLastD 0)).drop j).take (2 * h + 1)).sum /
          ((2 * h + 1 : ℕ) : ℚ))) := by
  refine ⟨apply_moving_average_length values h, fun hpos => ?_⟩
  have hne0 : h ≠ 0 := Nat.pos_iff_ne_zero.mp hpos
  simp only [apply_moving_average, hne0, if_false]
  have hcount : (List.replicate h values.headI ++ values ++
      List.replicate h (values.getLastD 0)).length + 1 - (2 * h + 1) =
      values.length := by
    simp only [List.length_append, List.length_replicate]
    omega
  rw [hcount]

/-- Closed witness for C8 at `values = [1, 2, 3]`, `h = 1`. -/
theorem smooth_edge_padding_invariant_witness :
    (apply_moving_average [1, 2, 3] 1).length = ([1, 2, 3] : List ℚ).length ∧
    (0 < 1 → apply_moving_average [1, 2, 3] 1 =
      (List.range ([1, 2, 3] : List ℚ).length).map (fun j =>
        (((List.replicate 1 ([1, 2, 3] : List ℚ).headI ++ [1, 2, 3] ++
            List.replicate 1 (([1, 2, 3] : List ℚ).getLastD 0)).drop j).take
          (2 * 1 + 1)).sum / ((2 * 1 + 1 : ℕ) : ℚ))) :=
  smooth_edge_padding_invariant [1, 2, 3] 1 (by decide)

/-- C6: when every fetched camera reports zero samples in the window, the
aggregation succeeds with an empty time series and empty camera timestamps. -/
theorem all_cameras_empty_law (predictions : List PredictionData)
    (request : AggregateTimeSeriesRequest)
    (hall : ∀ p ∈ predictions, p.has_data = false) :
    aggregate_core predictions request =
      .ok { time_series := [], camera_timestamps := [] } := by
  have h1 : predictions.filter (fun p => p.has_data) = [] :=
    List.filter_eq_nil_iff.mpr (fun a ha => by simp [hall a ha])
  unfold aggregate_core
  rw [h1]
  rfl

/-- Closed witness for C6: one camera, no samples. -/
theorem all_cameras_empty_law_witness :
    aggregate_core [{ dates := [], counts := [], camera_id := "A", position := "p" }]
      { end_date := 0, lookback_hours := 3, half_moving_avg_size := 0 } =
      .ok { time_series := [], camera_timestamps := [] } :=
  all_cameras_empty_law _ _ (by
    intro p hp
    simp only [List.mem_singleton] at hp
    subst hp
    rfl)

/-- C5: when some fetched cameras have data and at least one has none,
aggregation fails with the 422 partial-data error, and the missing-camera
names in the error are exactly the `camera_id@position` names of the cameras
lacking data. -/
theorem partial_data_law (predictions : List PredictionData)
    (request : AggregateTimeSeriesRequest)
    (hsome : ∃ p ∈ predictions, p.has_data = true)
    (hnone : ∃ p ∈ predictions, p.has_data = false) :
    ∃ missing, aggregate_core predictions request =
        .error (.partialData missing) ∧
      (AggError.partialData missing).statusCode = 422 ∧
      ∀ s, s ∈ missing ↔ ∃ p ∈ predictions, p.has_data = false ∧ s = cameraName p := by
  refine ⟨(predictions.filter (fun p => !p.has_data)).map cameraName, ?_, rfl, ?_⟩
  · obtain ⟨pd, hpd, hpdata⟩ := hsome
    obtain ⟨pe, hpe, hpempty⟩ := hnone
    have hw : pd ∈ predictions.filter (fun p => p.has_data) :=
      List.mem_filter.mpr ⟨hpd, hpdata⟩
    have hwo : pe ∈ predictions.filter (fun p => !p.has_data) :=
      List.mem_filter.mpr ⟨hpe, by simp [hpempty]⟩
    unfold aggregate_core
    rw [if_neg, if_pos]
    · exact List.length_pos.mpr (List.ne_nil_of_mem hwo)
    · exact Nat.pos_iff_ne_zero.mp (List.length_pos.mpr (List.ne_nil_of_mem hw))
  · intro s
    simp only [List.mem_map, List.mem_filter, Bool.not_eq_true']
    constructor
    · rintro ⟨p, ⟨hp, hdata⟩, rfl⟩
      exact ⟨p, hp, hdata, rfl⟩
    · rintro ⟨p, hp, hdata, rfl⟩
      exact ⟨p, ⟨hp, hdata⟩, rfl⟩

/-- Closed witness for C5: camera `A@p` has one sample, camera `B@q` has
none. -/
theorem partial_data_law_witness :
    ∃ missing,
      aggregate_core
          [{ dates := [0], counts := [5], camera_id := "A", position := "p" }
          , { dates := [], counts := [], camera_id := "B", position := "q" }]
          { end_date := 0, lookback_hours := 3, half_moving_avg_size := 0 } =
        .error (.partialData missing) ∧
      (AggError.partialData missing).statusCode = 422 ∧
      ∀ s, s ∈ missing ↔ ∃ p ∈
          [{ dates := [0], counts := [5], camera_id := "A", position := "p" }
          , ({ dates := [], counts := [], camera_id := "B", position := "q" }
              : PredictionData)],
        p.has_data = false ∧ s = cameraName p :=
  partial_data_law _ _
    ⟨{ dates := [0], counts := [5], camera_id := "A", position := "p" },
      by simp, rfl⟩
    ⟨{ dates := [], counts := [], camera_id := "B", position := "q" },
      by simp, rfl⟩

/-- C9: every emitted value is `max 0` of the truncation toward zero of the
corresponding smoothed value, hence non-negative. -/
theorem emitted_values_clamped (predictions : List PredictionData)
    (request : AggregateTimeSeriesRequest) (resp : AggregateTimeSeriesResponse)
    (hok : aggregate_core predictions request = .ok resp) :
    (∀ pt ∈ resp.time_series, 0 ≤ pt.value) ∧
    (resp.time_series = [] ∨
      resp.time_series.map (fun pt => pt.value) =
        ((observed_time_grid predictions request).zip
            (smoothed_values predictions request)).map
          (fun tv => max 0 (ratTrunc tv.2))) := by
  unfold aggregate_core at hok
  by_cases h1 : (predictions.filter (fun p => p.has_data)).length = 0
  · rw [if_pos h1] at hok
    obtain rfl := (Except.ok.injEq _ _).mp hok.symm
    simp
  · rw [if_neg h1] at hok
    by_cases h2 : 0 < (predictions.filter (fun p => !p.has_data)).length
    · rw [if_pos h2] at hok
      exact absurd hok (by simp)
    · rw [if_neg h2] at hok
      obtain rfl := (Except.ok.injEq _ _).mp hok.symm
      constructor
      · intro pt hpt
        unfold assembled_series at hpt
        simp only [List.mem_map] at hpt
        obtain ⟨tv, -, rfl⟩ := hpt
        exact le_max_left 0 _
      · right
        unfold assembled_series
        rw [List.map_map]
        rfl

/-- Closed witness for C9: one camera with one sample, 30-second lookback,
no smoothing; the emitted response has a single point of value 5. -/
theorem emitted_values_clamped_witness :
    (∀ pt ∈ (AggregateTimeSeriesResponse.mk
        [{ timestamp := 0, value := 5 }]
        [{ camera_id := "A", position := "p", timestamp := 0 }]).time_series,
      0 ≤ pt.value) ∧
    ((AggregateTimeSeriesResponse.mk
        [{ timestamp := 0, value := 5 }]
        [{ camera_id := "A", position := "p", timestamp := 0 }]).time_series = [] ∨
      (AggregateTimeSeriesResponse.mk
          [{ timestamp := 0, value := 5 }]
          [{ camera_id := "A", position := "p", timestamp := 0 }]).time_series.map
          (fun pt => pt.value) =
        ((observed_time_grid
              [{ dates := [0], counts := [5], camera_id := "A", position := "p" }]
              { end_date := 30, lookback_hours := 1/120, half_moving_avg_size := 0 }).zip
            (smoothed_values
              [{ dates := [0], counts := [5], camera_id := "A", position := "p" }]
              { end_date := 30, lookback_hours := 1/120, half_moving_avg_size := 0 })).map
          (fun tv => max 0 (ratTrunc tv.2))) :=
  emitted_values_clamped
    [{ dates := [0], counts := [5], camera_id := "A", position := "p" }]
    { end_date := 30, lookback_hours := 1/120, half_moving_avg_size := 0 }
    (AggregateTimeSeriesResponse.mk
      [{ timestamp := 0, value := 5 }]
      [{ camera_id := "A", position := "p", timestamp := 0 }])
    (by decide)

/-- C4 (code bug): the deployed validation accepts `lookback_hours = -1`
(the `gt=0` constraint is lost because the `Field` is wrapped in a one-element
tuple), while the intended validation rejects it; such a request therefore
reaches the sample fetch. -/
theorem validation_gap_negative_lookback :
    requestAccepted { end_date := 0, lookback_hours := -1, half_moving_avg_size := 0 } = true ∧
    requestAcceptedSpec { end_date := 0, lookback_hours := -1, half_moving_avg_size := 0 } = false := by
  constructor
  · rfl
  · decide

/-- C1 fails as stated: a resolved area may have zero cameras
(`project_repository.get_camera_mappings` registers an area before scanning
its camera configs), in which case every camera vacuously has a sample, the
fetch returns `[]`, and the service returns an empty time series although
`floor(lookback_hours * 120) = 360`. -/
theorem grid_count_counterexample :
    (∀ p ∈ ([] : List PredictionData), p.has_data = true) ∧
    aggregate_core [] { end_date := 0, lookback_hours := 3, half_moving_avg_size := 0 } =
      .ok { time_series := [], camera_timestamps := [] } ∧
    (Int.floor ((3 : ℚ) * 120) : ℤ) = 360 ∧ (0 : ℕ) ≠ 360 := by
  refine ⟨by simp, rfl, ?_, by decide⟩
  norm_num

/-- C1 amended: for every aggregation request on an area with at least one
camera in which every camera has at least one sample in the window, the
returned time series has exactly `floor(lookback_hours * 120)` points. -/
theorem grid_count_amended (predictions : List PredictionData)
    (request : AggregateTimeSeriesRequest) (hne : predictions ≠ [])
    (hall : ∀ p ∈ predictions, p.has_data = true)
    (hlb : 0 < request.lookback_hours) :
    ∃ resp, aggregate_core predictions request = .ok resp ∧
      (resp.time_series.length : ℤ) = Int.floor (request.lookback_hours * 120) := by
  refine ⟨_, aggregate_ok_of_all_data predictions request hne hall, ?_⟩
  have h0 : (0 : ℚ) ≤ request.lookback_hours * 120 := by positivity
  have hlen : (assembled_series predictions request).length = grid_point_count request :=
    assembled_series_length predictions request hne
  rw [hlen]
  unfold grid_point_count
  rw [ratTrunc_eq_floor _ h0, Int.toNat_of_nonneg (Int.floor_nonneg.mpr h0)]

/-- Closed witness for the amended C1: one camera, one sample, one-hour
lookback gives 120 points. -/
theorem grid_count_amended_witness :
    ∃ resp, aggregate_core
        [{ dates := [0], counts := [5], camera_id := "A", position := "p" }]
        { end_date := 3600, lookback_hours := 1, half_moving_avg_size := 0 } = .ok resp ∧
      (resp.time_series.length : ℤ) = Int.floor ((1 : ℚ) * 120) :=
  grid_count_amended
    [{ dates := [0], counts := [5], camera_id := "A", position := "p" }]
    { end_date := 3600, lookback_hours := 1, half_moving_avg_size := 0 }
    (by decide)
    (by
      intro p hp
      simp only [List.mem_singleton] at hp
      subst hp
      rfl)
    (by decide)

/-- The first point of a grid with at least two points is `lo`. -/
theorem linspace_head (lo hi : ℚ) (num : ℕ) (h2 : 2 ≤ num) :
    (linspace lo hi num).head? = some lo := by
  obtain ⟨k, rfl⟩ : ∃ k, num = k + 2 := ⟨num - 2, by omega⟩
  unfold linspace
  rw [if_neg (by omega), if_neg (by omega)]
  rw [List.range_succ_eq_map]
  simp

/-- The last point of a grid with at least two points is `hi`. -/
theorem linspace_last (lo hi : ℚ) (num : ℕ) (h2 : 2 ≤ num) :
    (linspace lo hi num).getLast? = some hi := by
  obtain ⟨k, rfl⟩ : ∃ k, num = k + 2 := ⟨num - 2, by omega⟩
  unfold linspace
  rw [if_neg (by omega), if_neg (by omega)]
  rw [List.range_succ, List.map_append, List.getLast?_append]
  have hne : ((k : ℚ) + 2) - 1 ≠ 0 := by
    have : (0 : ℚ) < (k : ℚ) + 1 := by positivity
    intro h
    nlinarith
  simp only [List.map_cons, List.map_nil, List.getLast?_singleton, Option.some.injEq]
  push_cast
  field_simp
  ring

/-- C2: on the all-cameras-have-data path, the evaluation grid runs from the
elapsed-seconds offset of the earliest observed sample to that of the latest
observed sample across all contributing cameras (not from 0 to the requested
window length). -/
theorem grid_spans_observed_range (predictions : List PredictionData)
    (request : AggregateTimeSeriesRequest)
    (hall : ∀ p ∈ predictions, p.has_data = true)
    (hnum : 2 ≤ grid_point_count request) :
    (observed_time_grid predictions request).head? =
      some (listMin (predictions.flatMap (fun p => p.dates)) - aggregate_start_dt request) ∧
    (observed_time_grid predictions request).getLast? =
      some (listMax (predictions.flatMap (fun p => p.dates)) - aggregate_start_dt request) := by
  unfold observed_time_grid create_interpolation_functions
  exact ⟨linspace_head _ _ _ hnum, linspace_last _ _ _ hnum⟩

/-- Closed witness for C2: one camera with samples at offsets 600 s and
1200 s of a one-hour window; the grid spans `[600, 1200]`, not `[0, 3600]`. -/
theorem grid_spans_observed_range_witness :
    (observed_time_grid
        [{ dates := [600, 1200], counts := [1, 2], camera_id := "A", position := "p" }]
        { end_date := 3600, lookback_hours := 1, half_moving_avg_size := 0 }).head? =
      some (listMin
          (([{ dates := [600, 1200], counts := [1, 2], camera_id := "A", position := "p" }]
            : List PredictionData).flatMap (fun p => p.dates)) -
        aggregate_start_dt
          { end_date := 3600, lookback_hours := 1, half_moving_avg_size := 0 }) ∧
    (observed_time_grid
        [{ dates := [600, 1200], counts := [1, 2], camera_id := "A", position := "p" }]
        { end_date := 3600, lookback_hours := 1, half_moving_avg_size := 0 }).getLast? =
      some (listMax
          (([{ dates := [600, 1200], counts := [1, 2], camera_id := "A", position := "p" }]
            : List PredictionData).flatMap (fun p => p.dates)) -
        aggregate_start_dt
          { end_date := 3600, lookback_hours := 1, half_moving_avg_size := 0 }) :=
  grid_spans_observed_range
    [{ dates := [600, 1200], counts := [1, 2], camera_id := "A", position := "p" }]
    { end_date := 3600, lookback_hours := 1, half_moving_avg_size := 0 }
    (by
      intro p hp
      simp only [List.mem_singleton] at hp
      subst hp
      rfl)
    (by decide)

/-- Below the second knot the first segment applies. -/
theorem interp1d_first_segment (x0 y0 x1 y1 : ℚ) (rest : List (ℚ × ℚ)) (t : ℚ)
    (ht : t ≤ x1) :
    interp1d ((x0, y0) :: (x1, y1) :: rest) t = interpSeg x0 y0 x1 y1 t := by
  cases rest with
  | nil => rfl
  | cons p rest2 => simp [interp1d, ht]

/-- Above the last knot the last segment applies. -/
theorem interp1d_last_segment (front : List (ℚ × ℚ)) (xa ya xb yb t : ℚ)
    (hs : List.Chain' (fun p q : ℚ × ℚ => p.1 < q.1) (front ++ [(xa, ya), (xb, yb)]))
    (ht : xb < t) :
    interp1d (front ++ [(xa, ya), (xb, yb)]) t = interpSeg xa ya xb yb t := by
  induction front with
  | nil => rfl
  | cons p0 front2 ih =>
    obtain ⟨x0, y0⟩ := p0
    cases front2 with
    | nil =>
      simp only [List.cons_append, List.nil_append] at hs ⊢
      rw [List.chain'_cons] at hs
      obtain ⟨-, hs2⟩ := hs
      rw [List.chain'_cons] at hs2
      obtain ⟨hab, -⟩ := hs2
      have hta : ¬ t ≤ xa := not_le.mpr (lt_trans hab ht)
      simp [interp1d, hta]
    | cons q front3 =>
      obtain ⟨xq, yq⟩ := q
      simp only [List.cons_append] at hs ⊢
      rw [List.chain'_cons] at hs
      obtain ⟨-, hs2⟩ := hs
      have hq_lt : xq < xb := by
        haveI : IsTrans (ℚ × ℚ) (fun p q : ℚ × ℚ => p.1 < q.1) :=
          ⟨fun _ _ _ h1 h2 => lt_trans h1 h2⟩
        have hpw := List.chain'_iff_pairwise.mp hs2
        have hmem : ((xb, yb) : ℚ × ℚ) ∈ front3 ++ [(xa, ya), (xb, yb)] := by simp
        exact (List.pairwise_cons.mp hpw).1 (xb, yb) hmem
      have htq : ¬ t ≤ xq := not_le.mpr (lt_trans hq_lt ht)
      have hrec := ih hs2
      have hstep : interp1d ((x0, y0) :: (xq, yq) :: (front3 ++ [(xa, ya), (xb, yb)])) t
          = interp1d ((xq, yq) :: (front3 ++ [(xa, ya), (xb, yb)])) t := by
        cases front3 with
        | nil => simp [interp1d, htq]
        | cons u v => simp [interp1d, htq]
      rw [hstep]
      exact hrec

/-- C10: for a camera with two or more samples (strictly increasing offsets),
the built interpolator is `interp1d` over the (offset, count) pairs; below
the observed range it extends the first segment linearly, above the range it
extends the last segment linearly, and in both directions the result is not
clamped to the boundary sample value when the adjacent segment has nonzero
slope. -/
theorem interpolator_extrapolates_linearly (start_dt t : ℚ)
    (pred : PredictionData) (x0 y0 x1 y1 xa ya xb yb : ℚ)
    (rest front : List (ℚ × ℚ))
    (h2 : 2 ≤ pred.dates.length)
    (hshape : (pred.dates.map (fun d => to_utc d - to_utc start_dt)).zip
        (pred.counts.map (fun c => (c : ℚ))) = (x0, y0) :: (x1, y1) :: rest)
    (hlast : (pred.dates.map (fun d => to_utc d - to_utc start_dt)).zip
        (pred.counts.map (fun c => (c : ℚ))) = front ++ [(xa, ya), (xb, yb)])
    (hs : List.Chain' (fun p q : ℚ × ℚ => p.1 < q.1) ((x0, y0) :: (x1, y1) :: rest)) :
    cameraInterpolator start_dt pred = interp1d ((x0, y0) :: (x1, y1) :: rest) ∧
    (t < x0 → cameraInterpolator start_dt pred t = interpSeg x0 y0 x1 y1 t) ∧
    (t < x0 → y0 ≠ y1 → cameraInterpolator start_dt pred t ≠ y0) ∧
    (xb < t → cameraInterpolator start_dt pred t = interpSeg xa ya xb yb t) ∧
    (xb < t → ya ≠ yb → cameraInterpolator start_dt pred t ≠ yb) := by
  have hne1 : pred.dates.length ≠ 1 := by omega
  have hA : cameraInterpolator start_dt pred = interp1d ((x0, y0) :: (x1, y1) :: rest) := by
    unfold cameraInterpolator
    rw [if_neg hne1, hshape]
  have hx01 : x0 < x1 := (List.chain'_cons.mp hs).1
  have hlist : (x0, y0) :: (x1, y1) :: rest = front ++ [((xa : ℚ), ya), (xb, yb)] :=
    hshape.symm.trans hlast
  have hxab : xa < xb := by
    have hs2 : List.Chain' (fun p q : ℚ × ℚ => p.1 < q.1) [(xa, ya), (xb, yb)] :=
      ((List.chain'_append.mp (hlist ▸ hs)).2).1
    exact (List.chain'_cons.mp hs2).1
  have hB : t < x0 → cameraInterpolator start_dt pred t = interpSeg x0 y0 x1 y1 t := by
    intro ht
    rw [hA]
    exact interp1d_first_segment x0 y0 x1 y1 rest t (le_of_lt (lt_trans ht hx01))
  have hD : xb < t → cameraInterpolator start_dt pred t = interpSeg xa ya xb yb t := by
    intro ht
    rw [hA, hlist]
    exact interp1d_last_segment front xa ya xb yb t (hlist ▸ hs) ht
  refine ⟨hA, hB, ?_, hD, ?_⟩
  · intro ht hy
    rw [hB ht]
    have hfac : (t - x0) * ((y1 - y0) / (x1 - x0)) ≠ 0 :=
      mul_ne_zero (sub_ne_zero.mpr (ne_of_lt ht))
        (div_ne_zero (sub_ne_zero.mpr (Ne.symm hy)) (sub_ne_zero.mpr (ne_of_gt hx01)))
    intro heq
    apply hfac
    have : y0 + (t - x0) * ((y1 - y0) / (x1 - x0)) = y0 := heq
    linarith
  · intro ht hy
    rw [hD ht]
    have hba : xb - xa ≠ 0 := sub_ne_zero.mpr (ne_of_gt hxab)
    have hdiff : interpSeg xa ya xb yb t - yb = (t - xb) * ((yb - ya) / (xb - xa)) := by
      unfold interpSeg
      field_simp
      ring
    have hfac : (t - xb) * ((yb - ya) / (xb - xa)) ≠ 0 :=
      mul_ne_zero (sub_ne_zero.mpr (ne_of_gt ht))
        (div_ne_zero (sub_ne_zero.mpr (Ne.symm hy)) hba)
    intro heq
    apply hfac
    rw [← hdiff, heq, sub_self]

/-- Closed witness for C10: samples at offsets 0, 100, 200 with counts
1, 3, 2 and query time 250 above the range. -/
theorem interpolator_extrapolates_linearly_witness :
    cameraInterpolator 100
        { dates := [100, 200, 300], counts := [1, 3, 2], camera_id := "A", position := "p" } =
      interp1d [(0, 1), (100, 3), (200, 2)] ∧
    ((250 : ℚ) < 0 → cameraInterpolator 100
        { dates := [100, 200, 300], counts := [1, 3, 2], camera_id := "A", position := "p" }
        250 = interpSeg 0 1 100 3 250) ∧
    ((250 : ℚ) < 0 → (1 : ℚ) ≠ 3 → cameraInterpolator 100
        { dates := [100, 200, 300], counts := [1, 3, 2], camera_id := "A", position := "p" }
        250 ≠ 1) ∧
    ((200 : ℚ) < 250 → cameraInterpolator 100
        { dates := [100, 200, 300], counts := [1, 3, 2], camera_id := "A", position := "p" }
        250 = interpSeg 100 3 200 2 250) ∧
    ((200 : ℚ) < 250 → (3 : ℚ) ≠ 2 → cameraInterpolator 100
        { dates := [100, 200, 300], counts := [1, 3, 2], camera_id := "A", position := "p" }
        250 ≠ 2) :=
  interpolator_extrapolates_linearly 100 250
    { dates := [100, 200, 300], counts := [1, 3, 2], camera_id := "A", position := "p" }
    0 1 100 3 100 3 200 2 [(200, 2)] [(0, 1)]
    (by decide) (by decide) (by decide) (by norm_num [List.chain'_cons])

/-- C3: in the worked two-camera scenario (camera A with samples (0 s, 10)
and (1800 s, 20), camera B with one sample of count 5 anywhere in the window,
`lookback_hours = 0.5`, no smoothing) the output has 60 points spanning
offsets `[0, 1800]`, the first value is 15, the last value is 25, and the
values are monotonically non-decreasing. -/
theorem worked_scenario (tB : ℚ) (h0 : 0 ≤ tB) (h1 : tB ≤ 1800) :
    ∃ resp, aggregate_core [predA, predB tB] reqWorked = .ok resp ∧
      resp.time_series.length = 60 ∧
      resp.time_series.head?.map (fun p => p.timestamp) = some 0 ∧
      resp.time_series.getLast?.map (fun p => p.timestamp) = some 1800 ∧
      resp.time_series.head?.map (fun p => p.value) = some 15 ∧
      resp.time_series.getLast?.map (fun p => p.value) = some 25 ∧
      List.Pairwise (fun p q => p.value ≤ q.value) resp.time_series := by
  have hall : ∀ p ∈ [predA, predB tB], p.has_data = true := by
    intro p hp
    rcases List.mem_cons.mp hp with rfl | hp2
    · rfl
    · rcases List.mem_cons.mp hp2 with rfl | h
      · rfl
      · cases h
  have hok := aggregate_ok_of_all_data [predA, predB tB] reqWorked (by simp) hall
  have hflat : ([predA, predB tB].flatMap (fun p => p.dates)) = [0, 1800, tB] := rfl
  have e1 : listMin [(0 : ℚ), 1800, tB] = 0 := by
    simp only [listMin, List.foldl_cons, List.foldl_nil]
    rw [min_eq_left (by norm_num : (0 : ℚ) ≤ 1800), min_eq_left h0]
  have e2 : listMax [(0 : ℚ), 1800, tB] = 1800 := by
    simp only [listMax, List.foldl_cons, List.foldl_nil]
    rw [max_eq_right (by norm_num : (0 : ℚ) ≤ 1800), max_eq_left h1]
  have hstart : aggregate_start_dt reqWorked = 0 := by decide
  have hnum : grid_point_count reqWorked = 60 := by decide
  have hgrid : observed_time_grid [predA, predB tB] reqWorked = linspace 0 1800 60 := by
    simp only [observed_time_grid, create_interpolation_functions]
    rw [hflat, e1, e2, hstart, hnum, sub_zero, sub_zero]
  have hfuncs : (create_interpolation_functions [predA, predB tB]
      (aggregate_start_dt reqWorked)).interpolation_funcs =
      [cameraInterpolator (aggregate_start_dt reqWorked) predA,
        fun _ => ((5 : ℤ) : ℚ)] := rfl
  have hsum : summed_values [predA, predB tB] reqWorked =
      List.zipWith (fun a b => a + b)
        ((linspace 0 1800 60).map (cameraInterpolator (aggregate_start_dt reqWorked) predA))
        ((linspace 0 1800 60).map (fun _ => ((5 : ℤ) : ℚ))) := by
    simp only [summed_values]
    rw [hfuncs]
    simp only [List.map_cons, List.map_nil, np_sum_axis0]
    rw [hgrid]
  have hh : apply_moving_average (summed_values [predA, predB tB] reqWorked)
      reqWorked.half_moving_avg_size.toNat =
      summed_values [predA, predB tB] reqWorked := rfl
  have hassm : assembled_series [predA, predB tB] reqWorked =
      ((linspace 0 1800 60).zip (List.zipWith (fun a b => a + b)
          ((linspace 0 1800 60).map (cameraInterpolator 0 predA))
          ((linspace 0 1800 60).map (fun _ => ((5 : ℤ) : ℚ))))).map
        (fun tv => { timestamp := (0 : ℚ) + tv.1, value := max 0 (ratTrunc tv.2) }) := by
    simp only [assembled_series, smoothed_values]
    rw [hh, hsum, hgrid, hstart]
  refine ⟨_, hok, ?_, ?_, ?_, ?_, ?_, ?_⟩ <;>
    · dsimp only
      rw [hassm]
      decide

/-- Closed witness for C3: camera B's sample at 900 s. -/
theorem worked_scenario_witness :
    ∃ resp, aggregate_core [predA, predB 900] reqWorked = .ok resp ∧
      resp.time_series.length = 60 ∧
      resp.time_series.head?.map (fun p => p.timestamp) = some 0 ∧
      resp.time_series.getLast?.map (fun p => p.timestamp) = some 1800 ∧
      resp.time_series.head?.map (fun p => p.value) = some 15 ∧
      resp.time_series.getLast?.map (fun p => p.value) = some 25 ∧
      List.Pairwise (fun p q => p.value ≤ q.value) resp.time_series :=
  worked_scenario 900 (by decide) (by decide)

end

end CCBackend
